import Mathlib

/-!
Shallow embedding of the CareQueue MIMIC-IV preprocessing scripts.

Time is modelled as natural-number ticks (one tick = one hour); `BIN_SIZE`
is the 4-hour bin width of the scripts.  Numeric measurement values are
rationals; a missing value (pandas NaN / SQL NULL) is `Option.none`.
-/

/-- One ICU stay row from `icustays` (stay_id, hadm_id, intime, outtime). -/
structure Stay where
  stay_id : Nat
  hadm_id : Nat
  intime : Nat
  outtime : Nat
deriving DecidableEq, Repr

/-- One `chartevents` row restricted to the columns the scripts use. -/
structure ChartEvent where
  stay_id : Nat
  itemid : Nat
  charttime : Nat
  valuenum : ℚ
deriving DecidableEq, Repr

/-- One `procedureevents` row restricted to the columns the scripts use. -/
structure ProcEvent where
  stay_id : Nat
  itemid : Nat
  starttime : Nat
deriving DecidableEq, Repr

/-- One transition record (s, a, r, s', done) as built by
`ddqn_processing.build_transitions_for_stay`. -/
structure Transition where
  state : List (Option ℚ)
  action : Nat
  reward : Int
  next_state : List (Option ℚ)
  done : Nat
deriving DecidableEq, Repr, Inhabited

/-- `BIN_SIZE = 4` (hours), the bin width of `ddqn_processing.py`. -/
def BIN_SIZE : Nat := 4

/-- `make_bins(intime, outtime)`: `pd.date_range(start=intime, end=outtime,
freq="4H")`, i.e. the timestamps `intime + 4*k` that do not exceed
`outtime` (empty when `outtime < intime`). -/
def make_bins (intime outtime : Nat) : List Nat :=
  if intime ≤ outtime then
    (List.range ((outtime - intime) / BIN_SIZE + 1)).map (fun k => intime + BIN_SIZE * k)
  else []

/-- The half-open windows `[bins[i], bins[i+1])` spanned by consecutive
elements of `make_bins`, as enumerated by `for i in range(len(bins) - 1)`. -/
def binWindows (intime outtime : Nat) : List (Nat × Nat) :=
  (List.range ((make_bins intime outtime).length - 1)).map
    (fun i => ((make_bins intime outtime).getD i 0, (make_bins intime outtime).getD (i + 1) 0))

/-- The six tracked vital-sign itemids (HR, TEMP, SPO2, SBP, DBP, MBP). -/
def STATE_V_ITEMIDS : List Nat := [220045, 223762, 220277, 220050, 220051, 220052]

/-- `.mean()` of a pandas series of (non-missing) values. -/
def seriesMean (vs : List ℚ) : ℚ := vs.sum / vs.length

/-- The `valuenum`s of the events in `[start, stop)` with the given itemid:
`window.loc[window.itemid == iid, "valuenum"]` inside `get_state_vector`. -/
def windowVals (ce : List ChartEvent) (start stop iid : Nat) : List ℚ :=
  ((ce.filter (fun e => decide (start ≤ e.charttime ∧ e.charttime < stop))).filter
    (fun e => e.itemid == iid)).map (fun e => e.valuenum)

/-- `get_state_vector(ce, start, end)`: per tracked itemid, the mean of the
in-window values, or NaN (here `none`) when the window holds none. -/
def get_state_vector (ce : List ChartEvent) (start stop : Nat) : List (Option ℚ) :=
  STATE_V_ITEMIDS.map (fun iid =>
    let vals := windowVals ce start stop iid
    if vals.isEmpty then none else some (seriesMean vals))

/-- Action label 1: ventilation. -/
def VENTILATION_IDS : List Nat := [225794]

/-- Action label 2: invasive lines. -/
def INVASIVE_LINES_IDS : List Nat := [224263, 224268, 225752]

/-- Action label 3: urinary catheter. -/
def U_CATHETER_IDS : List Nat := [229351]

/-- Action label 4: intubation or extubation. -/
def IN_EX_TUBATION_IDS : List Nat := [227194]

/-- Action label 5: dialysis. -/
def DIALYSIS_IDS : List Nat := [225802]

/-- The procedure events whose `starttime` falls in `[start, stop)`. -/
def procWindow (pe : List ProcEvent) (start stop : Nat) : List ProcEvent :=
  pe.filter (fun e => decide (start ≤ e.starttime ∧ e.starttime < stop))

/-- `get_action(pe, start, end)`: first matching priority category of the
in-window procedure events, else 0. -/
def get_action (pe : List ProcEvent) (start stop : Nat) : Nat :=
  let window := procWindow pe start stop
  if window.isEmpty then 0
  else if window.any (fun e => decide (e.itemid ∈ VENTILATION_IDS)) then 1
  else if window.any (fun e => decide (e.itemid ∈ INVASIVE_LINES_IDS)) then 2
  else if window.any (fun e => decide (e.itemid ∈ U_CATHETER_IDS)) then 3
  else if window.any (fun e => decide (e.itemid ∈ IN_EX_TUBATION_IDS)) then 4
  else if window.any (fun e => decide (e.itemid ∈ DIALYSIS_IDS)) then 5
  else 0

/-- `admissions_idx.loc[hadm_id]`: first `hospital_expire_flag` recorded for
the admission id, `none` on a missing key (pandas `KeyError`). -/
def lookupFlag (idx : List (Nat × Nat)) (hadm_id : Nat) : Option Nat :=
  (idx.find? (fun p => p.1 == hadm_id)).map (fun p => p.2)

/-- `try: died = admissions_idx.loc[hadm_id] == 1 except KeyError: died = False`. -/
def diedFlag (idx : List (Nat × Nat)) (hadm_id : Nat) : Bool :=
  match lookupFlag idx hadm_id with
  | some f => f == 1
  | none => false

/-- The per-bin state vectors of a stay (the `states` list built by the
`for i in range(len(bins) - 1)` loop). -/
def stayStates (ce : List ChartEvent) (bins : List Nat) : List (List (Option ℚ)) :=
  (List.range (bins.length - 1)).map
    (fun i => get_state_vector ce (bins.getD i 0) (bins.getD (i + 1) 0))

/-- The per-bin action labels of a stay (the `actions` list). -/
def stayActions (pe : List ProcEvent) (bins : List Nat) : List Nat :=
  (List.range (bins.length - 1)).map
    (fun i => get_action pe (bins.getD i 0) (bins.getD (i + 1) 0))

/-- The transition list assembled from `states`, `actions` and `died`:
one zero-reward non-terminal transition per consecutive pair of states,
then the terminal transition with reward ±1 and an all-zero next state
(`np.zeros_like(states[-1])`). -/
def mkTransitions (states : List (List (Option ℚ))) (actions : List Nat)
    (died : Bool) : List Transition :=
  ((List.range (states.length - 1)).map (fun t =>
    { state := states.getD t [], action := actions.getD t 0, reward := 0,
      next_state := states.getD (t + 1) [], done := 0 }))
  ++ [{ state := states.getD (states.length - 1) [],
        action := actions.getD (actions.length - 1) 0,
        reward := if died then -1 else 1,
        next_state := (states.getD (states.length - 1) []).map (fun _ => some 0),
        done := 1 }]

/-- `build_transitions_for_stay(stay)` from `ddqn_processing.py`. -/
def build_transitions_for_stay (idx : List (Nat × Nat)) (chartevents : List ChartEvent)
    (procedureevents : List ProcEvent) (stay : Stay) : List Transition :=
  let died := diedFlag idx stay.hadm_id
  let ce := chartevents.filter (fun e => e.stay_id == stay.stay_id)
  let pe := procedureevents.filter (fun e => e.stay_id == stay.stay_id)
  let bins := make_bins stay.intime stay.outtime
  if bins.length < 2 then []
  else mkTransitions (stayStates ce bins) (stayActions pe bins) died

example : (make_bins 0 8).length = 3 := by decide
example : (make_bins 0 5).length = 2 := by decide
example : (make_bins 0 1).length = 1 := by decide
example : (build_transitions_for_stay [] [] [] ⟨1, 10, 0, 8⟩).length = 2 := by decide
example : binWindows 0 5 = [(0, 4)] := by decide

/-! ### Basic lemmas about the transition assembly -/

lemma stayStates_length (ce : List ChartEvent) (bins : List Nat) :
    (stayStates ce bins).length = bins.length - 1 := by
  simp [stayStates]

lemma stayActions_length (pe : List ProcEvent) (bins : List Nat) :
    (stayActions pe bins).length = bins.length - 1 := by
  simp [stayActions]

lemma getD_range_map {α : Type} (f : Nat → α) (n i : Nat) (d : α) (h : i < n) :
    ((List.range n).map f).getD i d = f i := by
  have hlen : i < ((List.range n).map f).length := by simpa using h
  rw [List.getD_eq_getElem _ _ hlen]
  simp

lemma getD_append_singleton {α : Type} (l : List α) (t d : α) :
    (l ++ [t]).getD l.length d = t := by
  rw [List.getD_append_right l [t] d l.length (Nat.le_refl _), Nat.sub_self]
  rfl

lemma mkTransitions_length (states : List (List (Option ℚ))) (actions : List Nat)
    (died : Bool) (h : 1 ≤ states.length) :
    (mkTransitions states actions died).length = states.length := by
  simp only [mkTransitions, List.length_append, List.length_map, List.length_range,
    List.length_cons, List.length_nil]
  omega

lemma mkTransitions_getD_nonterm (states : List (List (Option ℚ))) (actions : List Nat)
    (died : Bool) (i : Nat) (hi : i + 1 < states.length) :
    (mkTransitions states actions died).getD i default =
      ({ state := states.getD i [], action := actions.getD i 0, reward := 0,
         next_state := states.getD (i + 1) [], done := 0 } : Transition) := by
  have hlen : i < ((List.range (states.length - 1)).map (fun t =>
      ({ state := states.getD t [], action := actions.getD t 0, reward := 0,
         next_state := states.getD (t + 1) [], done := 0 } : Transition))).length := by
    simp; omega
  rw [mkTransitions, List.getD_append _ _ _ _ hlen, getD_range_map]
  omega

lemma mkTransitions_getD_last (states : List (List (Option ℚ))) (actions : List Nat)
    (died : Bool) (h : 1 ≤ states.length) :
    (mkTransitions states actions died).getD
        ((mkTransitions states actions died).length - 1) default =
      ({ state := states.getD (states.length - 1) [],
         action := actions.getD (actions.length - 1) 0,
         reward := if died then -1 else 1,
         next_state := (states.getD (states.length - 1) []).map (fun _ => some 0),
         done := 1 } : Transition) := by
  rw [mkTransitions_length states actions died h]
  rw [mkTransitions, List.getD_append_right _ _ _ _ (by simp)]
  simp

lemma build_transitions_eq (idx : List (Nat × Nat)) (ce : List ChartEvent)
    (pe : List ProcEvent) (stay : Stay)
    (h : 2 ≤ (make_bins stay.intime stay.outtime).length) :
    build_transitions_for_stay idx ce pe stay =
      mkTransitions
        (stayStates (ce.filter (fun e => e.stay_id == stay.stay_id))
          (make_bins stay.intime stay.outtime))
        (stayActions (pe.filter (fun e => e.stay_id == stay.stay_id))
          (make_bins stay.intime stay.outtime))
        (diedFlag idx stay.hadm_id) := by
  simp only [build_transitions_for_stay]
  rw [if_neg (by omega)]

lemma diedFlag_iff (idx : List (Nat × Nat)) (hadm_id : Nat) :
    diedFlag idx hadm_id = true ↔ lookupFlag idx hadm_id = some 1 := by
  cases hl : lookupFlag idx hadm_id with
  | none => simp [diedFlag, hl]
  | some f => simp [diedFlag, hl]

/-! ### Claims about the transition builder -/

/-- Claim C1: for every stay whose bin sequence has at least 2 bins, the
transition builder emits exactly (number of bins - 1) transitions; the last
emitted transition has terminal flag (`done`) 1 and every other emitted
transition has terminal flag 0. -/
theorem build_transitions_count_and_flags (idx : List (Nat × Nat))
    (ce : List ChartEvent) (pe : List ProcEvent) (stay : Stay)
    (h : 2 ≤ (make_bins stay.intime stay.outtime).length) :
    (build_transitions_for_stay idx ce pe stay).length
        = (make_bins stay.intime stay.outtime).length - 1
    ∧ ((build_transitions_for_stay idx ce pe stay).getD
        ((build_transitions_for_stay idx ce pe stay).length - 1) default).done = 1
    ∧ ∀ i, i + 1 < (build_transitions_for_stay idx ce pe stay).length →
        ((build_transitions_for_stay idx ce pe stay).getD i default).done = 0 := by
  have hS := stayStates_length (ce.filter (fun e => e.stay_id == stay.stay_id))
    (make_bins stay.intime stay.outtime)
  have h1 : 1 ≤ (stayStates (ce.filter (fun e => e.stay_id == stay.stay_id))
      (make_bins stay.intime stay.outtime)).length := by omega
  refine ⟨?_, ?_, ?_⟩
  · rw [build_transitions_eq idx ce pe stay h, mkTransitions_length _ _ _ h1]
    omega
  · rw [build_transitions_eq idx ce pe stay h, mkTransitions_getD_last _ _ _ h1]
  · intro i hi
    rw [build_transitions_eq idx ce pe stay h] at hi ⊢
    rw [mkTransitions_length _ _ _ h1] at hi
    rw [mkTransitions_getD_nonterm _ _ _ i hi]

/-- Claim C1 witness: a 3-bin stay (8 ticks = 2 windows) yields 2 transitions. -/
theorem build_transitions_count_and_flags_witness :
    (build_transitions_for_stay [] [] [] ⟨1, 10, 0, 8⟩).length = 2 := by
  have h := (build_transitions_count_and_flags [] [] [] ⟨1, 10, 0, 8⟩ (by decide)).1
  have hb : (make_bins 0 8).length = 3 := by decide
  simp only [h]
  omega

/-- Claim C2: every non-terminal transition has reward 0, and the terminal
transition has reward in {+1, -1}, with reward -1 exactly when the owning
admission's `hospital_expire_flag` is 1. -/
theorem build_transitions_rewards (idx : List (Nat × Nat))
    (ce : List ChartEvent) (pe : List ProcEvent) (stay : Stay)
    (h : 2 ≤ (make_bins stay.intime stay.outtime).length) :
    (∀ i, i + 1 < (build_transitions_for_stay idx ce pe stay).length →
        ((build_transitions_for_stay idx ce pe stay).getD i default).reward = 0)
    ∧ (((build_transitions_for_stay idx ce pe stay).getD
          ((build_transitions_for_stay idx ce pe stay).length - 1) default).reward = -1
        ∨ ((build_transitions_for_stay idx ce pe stay).getD
          ((build_transitions_for_stay idx ce pe stay).length - 1) default).reward = 1)
    ∧ (((build_transitions_for_stay idx ce pe stay).getD
          ((build_transitions_for_stay idx ce pe stay).length - 1) default).reward = -1
        ↔ lookupFlag idx stay.hadm_id = some 1) := by
  have hS := stayStates_length (ce.filter (fun e => e.stay_id == stay.stay_id))
    (make_bins stay.intime stay.outtime)
  have h1 : 1 ≤ (stayStates (ce.filter (fun e => e.stay_id == stay.stay_id))
      (make_bins stay.intime stay.outtime)).length := by omega
  refine ⟨?_, ?_, ?_⟩
  · intro i hi
    rw [build_transitions_eq idx ce pe stay h] at hi ⊢
    rw [mkTransitions_length _ _ _ h1] at hi
    rw [mkTransitions_getD_nonterm _ _ _ i hi]
  · rw [build_transitions_eq idx ce pe stay h, mkTransitions_getD_last _ _ _ h1]
    by_cases hd : diedFlag idx stay.hadm_id
    · left; simp [hd]
    · right; simp [hd]
  · rw [build_transitions_eq idx ce pe stay h, mkTransitions_getD_last _ _ _ h1,
      ← diedFlag_iff idx stay.hadm_id]
    by_cases hd : diedFlag idx stay.hadm_id
    · simp [hd]
    · simp [hd]

/-- Claim C2 witness: for a died admission (flag 1) the terminal reward is -1. -/
theorem build_transitions_rewards_witness :
    ((build_transitions_for_stay [(10, 1)] [] [] ⟨1, 10, 0, 8⟩).getD
      ((build_transitions_for_stay [(10, 1)] [] [] ⟨1, 10, 0, 8⟩).length - 1)
      default).reward = -1 :=
  (build_transitions_rewards [(10, 1)] [] [] ⟨1, 10, 0, 8⟩ (by decide)).2.2.mpr (by decide)

/-- Claim C6: a stay whose bin sequence has fewer than 2 bins yields zero
transitions. -/
theorem build_transitions_short_stay (idx : List (Nat × Nat))
    (ce : List ChartEvent) (pe : List ProcEvent) (stay : Stay)
    (h : (make_bins stay.intime stay.outtime).length < 2) :
    build_transitions_for_stay idx ce pe stay = [] := by
  simp only [build_transitions_for_stay]
  rw [if_pos h]

/-- Claim C6 witness: a 1-tick stay has a single bin timestamp and is skipped. -/
theorem build_transitions_short_stay_witness :
    build_transitions_for_stay [] [] [] ⟨1, 10, 0, 1⟩ = [] :=
  build_transitions_short_stay [] [] [] ⟨1, 10, 0, 1⟩ (by decide)

/-- Claim C7: when the admission id is absent from the outcome-flag lookup,
the builder totally succeeds and the terminal reward is +1 (treated as
survived). -/
theorem build_transitions_missing_admission (idx : List (Nat × Nat))
    (ce : List ChartEvent) (pe : List ProcEvent) (stay : Stay)
    (h : 2 ≤ (make_bins stay.intime stay.outtime).length)
    (habs : lookupFlag idx stay.hadm_id = none) :
    ((build_transitions_for_stay idx ce pe stay).getD
      ((build_transitions_for_stay idx ce pe stay).length - 1) default).reward = 1 := by
  have hS := stayStates_length (ce.filter (fun e => e.stay_id == stay.stay_id))
    (make_bins stay.intime stay.outtime)
  have h1 : 1 ≤ (stayStates (ce.filter (fun e => e.stay_id == stay.stay_id))
      (make_bins stay.intime stay.outtime)).length := by omega
  rw [build_transitions_eq idx ce pe stay h, mkTransitions_getD_last _ _ _ h1]
  have hd : diedFlag idx stay.hadm_id = false := by
    simp [diedFlag, habs]
  simp [hd]

/-- Claim C7 witness: admission id 10 is absent from an unrelated lookup,
and the terminal reward evaluates to +1. -/
theorem build_transitions_missing_admission_witness :
    ((build_transitions_for_stay [(999, 1)] [] [] ⟨1, 10, 0, 8⟩).getD
      ((build_transitions_for_stay [(999, 1)] [] [] ⟨1, 10, 0, 8⟩).length - 1)
      default).reward = 1 :=
  build_transitions_missing_admission [(999, 1)] [] [] ⟨1, 10, 0, 8⟩ (by decide) (by decide)

/-! ### Claims about the action labeler and the state extractor -/

/-- The itemid set of action label c (empty for any other code): the
priority-ordered category table of `get_action`. -/
def actionIds (c : Nat) : List Nat :=
  if c = 1 then VENTILATION_IDS
  else if c = 2 then INVASIVE_LINES_IDS
  else if c = 3 then U_CATHETER_IDS
  else if c = 4 then IN_EX_TUBATION_IDS
  else if c = 5 then DIALYSIS_IDS
  else []

/-- The bin's event window holds a qualifying event of priority category c. -/
def hasActionCat (pe : List ProcEvent) (start stop c : Nat) : Prop :=
  ∃ e ∈ procWindow pe start stop, e.itemid ∈ actionIds c

lemma hasActionCat_iff_any (pe : List ProcEvent) (s t c : Nat) :
    hasActionCat pe s t c ↔
      (procWindow pe s t).any (fun e => decide (e.itemid ∈ actionIds c)) = true := by
  simp [hasActionCat, List.any_eq_true]

lemma get_action_cases (pe : List ProcEvent) (s t : Nat) :
    ∀ c, (procWindow pe s t).any (fun e => decide (e.itemid ∈ actionIds c)) = true →
      1 ≤ get_action pe s t ∧ get_action pe s t ≤ c ∧
      (procWindow pe s t).any
        (fun e => decide (e.itemid ∈ actionIds (get_action pe s t))) = true := by
  intro c hc
  have hne2 : ¬ ((procWindow pe s t).isEmpty = true) := by
    rcases List.any_eq_true.mp hc with ⟨e, he, _⟩
    intro hemp
    rw [List.isEmpty_iff] at hemp
    rw [hemp] at he
    simp at he
  match c with
  | 0 =>
    exfalso
    simp [actionIds] at hc
  | Nat.succ (Nat.succ (Nat.succ (Nat.succ (Nat.succ (Nat.succ n))))) =>
    exfalso
    have h6 : actionIds (n + 6) = [] := by
      simp only [actionIds]
      rw [if_neg (by omega), if_neg (by omega), if_neg (by omega),
        if_neg (by omega), if_neg (by omega)]
    rw [h6] at hc
    simp at hc
  | 1 =>
    have hck : (procWindow pe s t).any
        (fun e => decide (e.itemid ∈ VENTILATION_IDS)) = true := hc
    have hval : get_action pe s t = 1 := by
      simp only [get_action]
      rw [if_neg hne2, if_pos hck]
    rw [hval]
    exact ⟨by omega, by omega, hck⟩
  | 2 =>
    have hck : (procWindow pe s t).any
        (fun e => decide (e.itemid ∈ INVASIVE_LINES_IDS)) = true := hc
    by_cases h1 : (procWindow pe s t).any
        (fun e => decide (e.itemid ∈ VENTILATION_IDS)) = true
    · have hval : get_action pe s t = 1 := by
        simp only [get_action]
        rw [if_neg hne2, if_pos h1]
      rw [hval]
      exact ⟨by omega, by omega, h1⟩
    · have hval : get_action pe s t = 2 := by
        simp only [get_action]
        rw [if_neg hne2, if_neg h1, if_pos hck]
      rw [hval]
      exact ⟨by omega, by omega, hck⟩
  | 3 =>
    have hck : (procWindow pe s t).any
        (fun e => decide (e.itemid ∈ U_CATHETER_IDS)) = true := hc
    by_cases h1 : (procWindow pe s t).any
        (fun e => decide (e.itemid ∈ VENTILATION_IDS)) = true
    · have hval : get_action pe s t = 1 := by
        simp only [get_action]
        rw [if_neg hne2, if_pos h1]
      rw [hval]
      exact ⟨by omega, by omega, h1⟩
    · by_cases h2 : (procWindow pe s t).any
          (fun e => decide (e.itemid ∈ INVASIVE_LINES_IDS)) = true
      · have hval : get_action pe s t = 2 := by
          simp only [get_action]
          rw [if_neg hne2, if_neg h1, if_pos h2]
        rw [hval]
        exact ⟨by omega, by omega, h2⟩
      · have hval : get_action pe s t = 3 := by
          simp only [get_action]
          rw [if_neg hne2, if_neg h1, if_neg h2, if_pos hck]
        rw [hval]
        exact ⟨by omega, by omega, hck⟩
  | 4 =>
    have hck : (procWindow pe s t).any
        (fun e => decide (e.itemid ∈ IN_EX_TUBATION_IDS)) = true := hc
    by_cases h1 : (procWindow pe s t).any
        (fun e => decide (e.itemid ∈ VENTILATION_IDS)) = true
    · have hval : get_action pe s t = 1 := by
        simp only [get_action]
        rw [if_neg hne2, if_pos h1]
      rw [hval]
      exact ⟨by omega, by omega, h1⟩
    · by_cases h2 : (procWindow pe s t).any
          (fun e => decide (e.itemid ∈ INVASIVE_LINES_IDS)) = true
      · have hval : get_action pe s t = 2 := by
          simp only [get_action]
          rw [if_neg hne2, if_neg h1, if_pos h2]
        rw [hval]
        exact ⟨by omega, by omega, h2⟩
      · by_cases h3 : (procWindow pe s t).any
            (fun e => decide (e.itemid ∈ U_CATHETER_IDS)) = true
        · have hval : get_action pe s t = 3 := by
            simp only [get_action]
            rw [if_neg hne2, if_neg h1, if_neg h2, if_pos h3]
          rw [hval]
          exact ⟨by omega, by omega, h3⟩
        · have hval : get_action pe s t = 4 := by
            simp only [get_action]
            rw [if_neg hne2, if_neg h1, if_neg h2, if_neg h3, if_pos hck]
          rw [hval]
          exact ⟨by omega, by omega, hck⟩
  | 5 =>
    have hck : (procWindow pe s t).any
        (fun e => decide (e.itemid ∈ DIALYSIS_IDS)) = true := hc
    by_cases h1 : (procWindow pe s t).any
        (fun e => decide (e.itemid ∈ VENTILATION_IDS)) = true
    · have hval : get_action pe s t = 1 := by
        simp only [get_action]
        rw [if_neg hne2, if_pos h1]
      rw [hval]
      exact ⟨by omega, by omega, h1⟩
    · by_cases h2 : (procWindow pe s t).any
          (fun e => decide (e.itemid ∈ INVASIVE_LINES_IDS)) = true
      · have hval : get_action pe s t = 2 := by
          simp only [get_action]
          rw [if_neg hne2, if_neg h1, if_pos h2]
        rw [hval]
        exact ⟨by omega, by omega, h2⟩
      · by_cases h3 : (procWindow pe s t).any
            (fun e => decide (e.itemid ∈ U_CATHETER_IDS)) = true
        · have hval : get_action pe s t = 3 := by
            simp only [get_action]
            rw [if_neg hne2, if_neg h1, if_neg h2, if_pos h3]
          rw [hval]
          exact ⟨by omega, by omega, h3⟩
        · by_cases h4 : (procWindow pe s t).any
              (fun e => decide (e.itemid ∈ IN_EX_TUBATION_IDS)) = true
          · have hval : get_action pe s t = 4 := by
              simp only [get_action]
              rw [if_neg hne2, if_neg h1, if_neg h2, if_neg h3, if_pos h4]
            rw [hval]
            exact ⟨by omega, by omega, h4⟩
          · have hval : get_action pe s t = 5 := by
              simp only [get_action]
              rw [if_neg hne2, if_neg h1, if_neg h2, if_neg h3, if_neg h4, if_pos hck]
            rw [hval]
            exact ⟨by omega, by omega, hck⟩

/-- Claim C4: the action labeler is total, always returning a code in
{0, 1, 2, 3, 4, 5}; whenever some priority category is present in the bin's
window, the returned code is itself a present category no lower-priority
than it — so for any two different present priority categories the returned
code is at most the higher-priority (lower-numbered) one and never the
lower-priority one — and in particular a window holding both a priority-1
(ventilation) and a priority-3 (urinary catheter) qualifying event is
labeled 1. -/
theorem get_action_total_and_priority (pe : List ProcEvent) (start stop : Nat) :
    get_action pe start stop ∈ [0, 1, 2, 3, 4, 5]
    ∧ (∀ c, hasActionCat pe start stop c →
        1 ≤ get_action pe start stop ∧ get_action pe start stop ≤ c
        ∧ hasActionCat pe start stop (get_action pe start stop))
    ∧ (∀ p q, p < q → hasActionCat pe start stop p → hasActionCat pe start stop q →
        get_action pe start stop ≤ p ∧ get_action pe start stop ≠ q
        ∧ hasActionCat pe start stop (get_action pe start stop))
    ∧ (hasActionCat pe start stop 1 → hasActionCat pe start stop 3 →
        get_action pe start stop = 1) := by
  have hall : ∀ c, hasActionCat pe start stop c →
      1 ≤ get_action pe start stop ∧ get_action pe start stop ≤ c
      ∧ hasActionCat pe start stop (get_action pe start stop) := by
    intro c hcat
    have h := get_action_cases pe start stop c
      ((hasActionCat_iff_any pe start stop c).mp hcat)
    exact ⟨h.1, h.2.1, (hasActionCat_iff_any pe start stop _).mpr h.2.2⟩
  refine ⟨?_, hall, ?_, ?_⟩
  · simp only [get_action]
    split_ifs <;> decide
  · intro p q hpq hp hq
    obtain ⟨h1, h2, h3⟩ := hall p hp
    exact ⟨h2, by omega, h3⟩
  · intro h1 h3
    obtain ⟨ha, hb, _⟩ := hall 1 h1
    omega

/-- Claim C4 witness: a bin with both a ventilation (priority 1) and a
catheter (priority 3) event gets code 1; a bin with both an invasive-line
(priority 2) and a dialysis (priority 5) event gets code 2; the code is in
the fixed set. -/
theorem get_action_total_and_priority_witness :
    get_action [⟨1, 225794, 0⟩, ⟨1, 229351, 1⟩] 0 4 ∈ [0, 1, 2, 3, 4, 5]
    ∧ get_action [⟨1, 225794, 0⟩, ⟨1, 229351, 1⟩] 0 4 = 1
    ∧ get_action [⟨1, 224263, 0⟩, ⟨1, 225802, 1⟩] 0 4 = 2 := by
  refine ⟨(get_action_total_and_priority [⟨1, 225794, 0⟩, ⟨1, 229351, 1⟩] 0 4).1,
    (get_action_total_and_priority [⟨1, 225794, 0⟩, ⟨1, 229351, 1⟩] 0 4).2.2.2
      ((hasActionCat_iff_any [⟨1, 225794, 0⟩, ⟨1, 229351, 1⟩] 0 4 1).mpr (by decide))
      ((hasActionCat_iff_any [⟨1, 225794, 0⟩, ⟨1, 229351, 1⟩] 0 4 3).mpr (by decide)),
    ?_⟩
  obtain ⟨h2, hne5, hcat⟩ :=
    (get_action_total_and_priority [⟨1, 224263, 0⟩, ⟨1, 225802, 1⟩] 0 4).2.2.1
      2 5 (by omega)
      ((hasActionCat_iff_any [⟨1, 224263, 0⟩, ⟨1, 225802, 1⟩] 0 4 2).mpr (by decide))
      ((hasActionCat_iff_any [⟨1, 224263, 0⟩, ⟨1, 225802, 1⟩] 0 4 5).mpr (by decide))
  have h1 := ((get_action_total_and_priority [⟨1, 224263, 0⟩, ⟨1, 225802, 1⟩] 0 4).2.1
    2 ((hasActionCat_iff_any [⟨1, 224263, 0⟩, ⟨1, 225802, 1⟩] 0 4 2).mpr (by decide))).1
  have hor : get_action [⟨1, 224263, 0⟩, ⟨1, 225802, 1⟩] 0 4 = 1
      ∨ get_action [⟨1, 224263, 0⟩, ⟨1, 225802, 1⟩] 0 4 = 2 := by omega
  rcases hor with h4 | h4
  · rw [h4, hasActionCat_iff_any] at hcat
    exact absurd hcat (by decide)
  · exact h4

/-- Claim C5: the state vector has one slot per tracked signal; a slot whose
window holds no qualifying event is missing (`none`, in particular not the
number 0), and a slot with qualifying events is their arithmetic mean. -/
theorem get_state_vector_missing_or_mean (ce : List ChartEvent) (start stop : Nat)
    (j : Nat) (hj : j < STATE_V_ITEMIDS.length) :
    (get_state_vector ce start stop).length = STATE_V_ITEMIDS.length
    ∧ (windowVals ce start stop STATE_V_ITEMIDS[j] = [] →
        (get_state_vector ce start stop)[j]? = some none
        ∧ (get_state_vector ce start stop)[j]? ≠ some (some 0))
    ∧ (windowVals ce start stop STATE_V_ITEMIDS[j] ≠ [] →
        (get_state_vector ce start stop)[j]? =
          some (some (seriesMean (windowVals ce start stop STATE_V_ITEMIDS[j])))) := by
  have hlen : (get_state_vector ce start stop).length = STATE_V_ITEMIDS.length := by
    simp [get_state_vector]
  have hget : (get_state_vector ce start stop)[j]? =
      some (if (windowVals ce start stop STATE_V_ITEMIDS[j]).isEmpty then none
            else some (seriesMean (windowVals ce start stop STATE_V_ITEMIDS[j]))) := by
    simp only [get_state_vector, List.getElem?_map, List.getElem?_eq_getElem hj]
    rfl
  refine ⟨hlen, ?_, ?_⟩
  · intro hempty
    rw [hget]
    rw [if_pos (by simpa using hempty)]
    exact ⟨rfl, by simp⟩
  · intro hne
    rw [hget]
    rw [if_neg (by simpa using hne)]

/-- Claim C5 witness: two heart-rate readings 70 and 80 in the window give
slot 0 the mean 75, and an empty window gives slot 0 missing. -/
theorem get_state_vector_missing_or_mean_witness :
    (get_state_vector [⟨1, 220045, 0, 70⟩, ⟨1, 220045, 2, 80⟩] 0 4)[0]? = some (some 75)
    ∧ (get_state_vector [] 0 4)[0]? = some none := by
  constructor
  · have h := (get_state_vector_missing_or_mean
      [⟨1, 220045, 0, 70⟩, ⟨1, 220045, 2, 80⟩] 0 4 0 (by decide)).2.2 (by decide)
    rw [h]
    have hw : windowVals [⟨1, 220045, 0, 70⟩, ⟨1, 220045, 2, 80⟩] 0 4
        STATE_V_ITEMIDS[0] = [70, 80] := by
      simp [windowVals, STATE_V_ITEMIDS, List.filter]
    rw [hw]
    norm_num [seriesMean]
  · exact ((get_state_vector_missing_or_mean [] 0 4 0 (by decide)).2.1 (by decide)).1

/-! ### Claims about the time binner -/

lemma make_bins_eq (it ot : Nat) (h : it ≤ ot) :
    make_bins it ot =
      (List.range ((ot - it) / BIN_SIZE + 1)).map (fun k => it + BIN_SIZE * k) := by
  rw [make_bins, if_pos h]

lemma make_bins_length (it ot : Nat) (h : it ≤ ot) :
    (make_bins it ot).length = (ot - it) / BIN_SIZE + 1 := by
  rw [make_bins_eq it ot h]
  simp

lemma make_bins_getD (it ot i : Nat) (h : it ≤ ot)
    (hi : i < (make_bins it ot).length) :
    (make_bins it ot).getD i 0 = it + BIN_SIZE * i := by
  rw [make_bins_eq it ot h] at hi ⊢
  exact getD_range_map _ _ _ _ (by simpa using hi)

lemma binWindows_length (it ot : Nat) (h : it ≤ ot) :
    (binWindows it ot).length = (ot - it) / BIN_SIZE := by
  rw [binWindows]
  rw [List.length_map, List.length_range, make_bins_length it ot h]
  exact Nat.add_sub_cancel _ _

lemma binWindows_mem (it ot : Nat) (h : it ≤ ot) (w : Nat × Nat) :
    w ∈ binWindows it ot ↔ ∃ i < (ot - it) / BIN_SIZE,
      w = (it + BIN_SIZE * i, it + BIN_SIZE * (i + 1)) := by
  have hlen := make_bins_length it ot h
  simp only [binWindows, List.mem_map, List.mem_range]
  constructor
  · rintro ⟨i, hi, rfl⟩
    have hi2 : i < (ot - it) / BIN_SIZE := by omega
    refine ⟨i, hi2, ?_⟩
    rw [make_bins_getD it ot i h (by omega), make_bins_getD it ot (i + 1) h (by omega)]
  · rintro ⟨i, hi, rfl⟩
    refine ⟨i, by omega, ?_⟩
    rw [make_bins_getD it ot i h (by omega), make_bins_getD it ot (i + 1) h (by omega)]

lemma binWindows_getD (it ot i : Nat) (h : it ≤ ot)
    (hi : i < (binWindows it ot).length) :
    (binWindows it ot).getD i (0, 0) =
      (it + BIN_SIZE * i, it + BIN_SIZE * (i + 1)) := by
  have hlen := make_bins_length it ot h
  have hwlen := binWindows_length it ot h
  rw [binWindows]
  rw [getD_range_map _ _ _ _ (by simp only [binWindows] at hi; simpa using hi)]
  rw [make_bins_getD it ot i h (by omega), make_bins_getD it ot (i + 1) h (by omega)]

/-- Claim C3 counterexample: for a stay of 5 ticks the `pd.date_range`-based
bins form the single window [0, 4), so the union of the bins does not cover
the whole interval [0, 5): the point 4 lies in no bin. -/
theorem make_bins_coverage_counterexample :
    ¬ (∀ t : Nat, 0 ≤ t → t < 5 → ∃ w ∈ binWindows 0 5, w.1 ≤ t ∧ t < w.2) := by
  intro hcov
  obtain ⟨w, hw, h1, h2⟩ := hcov 4 (Nat.zero_le _) (by omega)
  have hbw : binWindows 0 5 = [(0, 4)] := by decide
  rw [hbw] at hw
  have hw4 : w = (0, 4) := by simpa using hw
  rw [hw4] at h2
  simp at h2

/-- Claim C3 as amended: for every stay with start < end, the generated bins
are contiguous equal-width windows (bin i is exactly
[start + w*i, start + w*(i+1)), so bin i's end equals bin i+1's start), no
bin starts before the stay start or at/after the stay end, and the union of
the bins covers exactly [start, start + w*floor((end-start)/w)) — which is
the whole interval [start, end) exactly when the bin width divides the stay
duration; the trailing remainder of a non-multiple duration is uncovered. -/
theorem binWindows_spec (intime outtime : Nat) (h : intime < outtime) :
    (binWindows intime outtime).length = (outtime - intime) / BIN_SIZE
    ∧ (∀ i, i < (binWindows intime outtime).length →
        (binWindows intime outtime).getD i (0, 0) =
          (intime + BIN_SIZE * i, intime + BIN_SIZE * (i + 1)))
    ∧ (∀ w ∈ binWindows intime outtime,
        intime ≤ w.1 ∧ w.1 < outtime ∧ w.2 = w.1 + BIN_SIZE)
    ∧ (∀ t : Nat, (∃ w ∈ binWindows intime outtime, w.1 ≤ t ∧ t < w.2) ↔
        intime ≤ t ∧ t < intime + BIN_SIZE * ((outtime - intime) / BIN_SIZE))
    ∧ (BIN_SIZE ∣ outtime - intime →
        ∀ t : Nat, intime ≤ t → t < outtime →
          ∃ w ∈ binWindows intime outtime, w.1 ≤ t ∧ t < w.2) := by
  have hle : intime ≤ outtime := Nat.le_of_lt h
  have hdm := Nat.div_add_mod (outtime - intime) BIN_SIZE
  have hm : (outtime - intime) % BIN_SIZE < BIN_SIZE := Nat.mod_lt _ (by decide)
  have hcov : ∀ t : Nat, (∃ w ∈ binWindows intime outtime, w.1 ≤ t ∧ t < w.2) ↔
      intime ≤ t ∧ t < intime + BIN_SIZE * ((outtime - intime) / BIN_SIZE) := by
    intro t
    constructor
    · rintro ⟨w, hw, h1, h2⟩
      obtain ⟨i, hi, rfl⟩ := (binWindows_mem intime outtime hle w).mp hw
      simp only [BIN_SIZE] at h1 h2 hi ⊢
      omega
    · rintro ⟨h1, h2⟩
      have hq : (t - intime) / BIN_SIZE < (outtime - intime) / BIN_SIZE := by
        simp only [BIN_SIZE] at h2 ⊢
        omega
      refine ⟨(intime + BIN_SIZE * ((t - intime) / BIN_SIZE),
               intime + BIN_SIZE * ((t - intime) / BIN_SIZE + 1)),
        (binWindows_mem intime outtime hle _).mpr ⟨(t - intime) / BIN_SIZE, hq, rfl⟩,
        ?_, ?_⟩
      · simp only [BIN_SIZE]
        omega
      · simp only [BIN_SIZE] at h2 ⊢
        omega
  refine ⟨binWindows_length intime outtime hle,
    fun i hi => binWindows_getD intime outtime i hle hi, ?_, hcov, ?_⟩
  · intro w hw
    obtain ⟨i, hi, rfl⟩ := (binWindows_mem intime outtime hle w).mp hw
    refine ⟨?_, ?_, ?_⟩
    · simp only [BIN_SIZE]
      omega
    · simp only [BIN_SIZE] at hi ⊢
      omega
    · simp only [BIN_SIZE]
      omega
  · intro hdvd t h1 h2
    have hc : BIN_SIZE * ((outtime - intime) / BIN_SIZE) = outtime - intime :=
      Nat.mul_div_cancel' hdvd
    exact (hcov t).mpr ⟨h1, by omega⟩

/-- Claim C3 amended witness: a 5-tick stay yields one window, and the point
2 is covered by it. -/
theorem binWindows_spec_witness :
    (binWindows 0 5).length = (5 - 0) / BIN_SIZE
    ∧ ∃ w ∈ binWindows 0 5, w.1 ≤ 2 ∧ 2 < w.2 :=
  ⟨(binWindows_spec 0 5 (by decide)).1,
   ((binWindows_spec 0 5 (by decide)).2.2.2.1 2).mpr (by decide)⟩

/-! ### Claims about the chunked patient-feature aggregation
(`merging_files.aggregate_events_to_patient_features`) -/

/-- The supported values of `AGG_FUNC`. -/
inductive AggFunc
  | median
  | mean
  | max
  | min
deriving DecidableEq

/-- Insert a value into a sorted list of values. -/
def sortedInsert (x : ℚ) : List ℚ → List ℚ
  | [] => [x]
  | y :: ys => if x ≤ y then x :: y :: ys else y :: sortedInsert x ys

/-- Ascending sort of a list of values. -/
def sortQ (l : List ℚ) : List ℚ := l.foldr sortedInsert []

/-- Pandas `.median()`: middle of the sorted values, or the average of the
two middle values for an even count. -/
def listMedian (vs : List ℚ) : ℚ :=
  if (sortQ vs).length % 2 = 1 then (sortQ vs).getD ((sortQ vs).length / 2) 0
  else ((sortQ vs).getD ((sortQ vs).length / 2 - 1) 0
        + (sortQ vs).getD ((sortQ vs).length / 2) 0) / 2

/-- Pandas `.mean()`. -/
def listMean (vs : List ℚ) : ℚ := vs.sum / vs.length

/-- Fold a binary operation over a nonempty list (`.max()` / `.min()`). -/
def fold1 (op : ℚ → ℚ → ℚ) : List ℚ → ℚ
  | [] => 0
  | x :: xs => xs.foldl op x

/-- Dispatch on `AGG_FUNC` as the `if agg == ...` chain does. -/
def applyAgg : AggFunc → List ℚ → ℚ
  | AggFunc.median, vs => listMedian vs
  | AggFunc.mean, vs => listMean vs
  | AggFunc.max, vs => fold1 (fun a b => max a b) vs
  | AggFunc.min, vs => fold1 (fun a b => min a b) vs

/-- One events row restricted to the columns the aggregation uses. -/
structure EventRow where
  subject_id : Nat
  itemid : Nat
  valuenum : ℚ
deriving DecidableEq, Repr

/-- The values of the group `(subject_id, feature)` in a batch of rows:
filter to wanted itemids, map itemid to feature, group. -/
def rowValuesFor (m : Nat → Option Nat) (k : Nat × Nat) (rows : List EventRow) : List ℚ :=
  (rows.filter (fun r => decide (r.subject_id = k.1 ∧ m r.itemid = some k.2))).map
    (fun r => r.valuenum)

/-- The per-chunk aggregate of the group `(subject_id, feature)`: present
only when the chunk holds rows of that group. -/
def chunkValue (agg : AggFunc) (m : Nat → Option Nat) (k : Nat × Nat)
    (rows : List EventRow) : Option ℚ :=
  let vs := rowValuesFor m k rows
  if vs.isEmpty then none else some (applyAgg agg vs)

/-- The chunked pipeline: per-chunk aggregates of the group, then the same
aggregate across the per-chunk values. -/
def twoLevelAgg (agg : AggFunc) (m : Nat → Option Nat) (k : Nat × Nat)
    (chunks : List (List EventRow)) : Option ℚ :=
  let ps := chunks.filterMap (chunkValue agg m k)
  if ps.isEmpty then none else some (applyAgg agg ps)

/-- The in-memory reference: one aggregate over all rows of the group. -/
def onePassAgg (agg : AggFunc) (m : Nat → Option Nat) (k : Nat × Nat)
    (rows : List EventRow) : Option ℚ :=
  chunkValue agg m k rows

/-- Claim C8 counterexample: with the table split into chunks [one row 0]
and [two rows 2], the mean-of-chunk-means is 1 while the overall mean is
4/3, so the two-level reduction disagrees with the single pass for `mean`. -/
theorem twoLevelAgg_mean_counterexample :
    twoLevelAgg AggFunc.mean (fun i => some i) (1, 7)
        [[⟨1, 7, 0⟩], [⟨1, 7, 2⟩, ⟨1, 7, 2⟩]]
      ≠ onePassAgg AggFunc.mean (fun i => some i) (1, 7)
        [⟨1, 7, 0⟩, ⟨1, 7, 2⟩, ⟨1, 7, 2⟩] := by
  have hA : rowValuesFor (fun i => some i) (1, 7) [⟨1, 7, 0⟩] = [0] := by decide
  have hB : rowValuesFor (fun i => some i) (1, 7) [⟨1, 7, 2⟩, ⟨1, 7, 2⟩] = [2, 2] := by
    decide
  have hC : rowValuesFor (fun i => some i) (1, 7)
      [⟨1, 7, 0⟩, ⟨1, 7, 2⟩, ⟨1, 7, 2⟩] = [0, 2, 2] := by decide
  simp only [twoLevelAgg, onePassAgg, chunkValue, List.filterMap_cons, List.filterMap_nil,
    hA, hB, hC]
  norm_num [applyAgg, listMean, List.filterMap_cons]

/-! ### The two-level reduction agrees with one pass for min and max -/

lemma foldl_assoc_out (op : ℚ → ℚ → ℚ)
    (hassoc : ∀ a b c, op (op a b) c = op a (op b c)) (l : List ℚ) :
    ∀ a b, l.foldl op (op a b) = op a (l.foldl op b) := by
  induction l with
  | nil => intro a b; rfl
  | cons x xs ih =>
    intro a b
    simp only [List.foldl_cons]
    rw [hassoc, ih]

lemma foldl_fold1 (op : ℚ → ℚ → ℚ)
    (hassoc : ∀ a b c, op (op a b) c = op a (op b c)) (z : ℚ) (b : List ℚ)
    (hb : b ≠ []) : b.foldl op z = op z (fold1 op b) := by
  cases b with
  | nil => exact absurd rfl hb
  | cons y ys =>
    simp only [List.foldl_cons, fold1]
    exact foldl_assoc_out op hassoc ys z y

lemma fold1_append (op : ℚ → ℚ → ℚ)
    (hassoc : ∀ a b c, op (op a b) c = op a (op b c)) (a b : List ℚ)
    (ha : a ≠ []) (hb : b ≠ []) :
    fold1 op (a ++ b) = op (fold1 op a) (fold1 op b) := by
  cases a with
  | nil => exact absurd rfl ha
  | cons x xs =>
    simp only [fold1, List.cons_append, List.foldl_append]
    exact foldl_fold1 op hassoc _ b hb

/-- The per-chunk folds of the nonempty chunks. -/
def chunkFolds (op : ℚ → ℚ → ℚ) (vss : List (List ℚ)) : List ℚ :=
  vss.filterMap (fun vs => if vs.isEmpty then none else some (fold1 op vs))

lemma fold1_two_level (op : ℚ → ℚ → ℚ)
    (hassoc : ∀ a b c, op (op a b) c = op a (op b c)) (vss : List (List ℚ)) :
    (if (chunkFolds op vss).isEmpty then none
     else some (fold1 op (chunkFolds op vss)))
      = (if vss.flatten.isEmpty then none else some (fold1 op vss.flatten)) := by
  induction vss with
  | nil => rfl
  | cons vs rest ih =>
    by_cases hvs : vs.isEmpty = true
    · have hv : vs = [] := List.isEmpty_iff.mp hvs
      subst hv
      have h1 : chunkFolds op ([] :: rest) = chunkFolds op rest := by
        simp [chunkFolds]
      have h2 : (List.flatten ([] :: rest)) = rest.flatten := by simp
      rw [h1, h2]
      exact ih
    · have hv : vs ≠ [] := by
        intro h0
        rw [h0] at hvs
        simp at hvs
      have hcf : chunkFolds op (vs :: rest) = fold1 op vs :: chunkFolds op rest := by
        simp only [chunkFolds, List.filterMap_cons, hvs]
        simp
      have hj : (List.flatten (vs :: rest)) = vs ++ rest.flatten := by simp
      rw [hcf, hj]
      by_cases hrest : (chunkFolds op rest).isEmpty = true
      · have hrnil : chunkFolds op rest = [] := List.isEmpty_iff.mp hrest
        have hrj : rest.flatten = [] := by
          by_contra hne
          obtain ⟨c, hc, hcne⟩ : ∃ c ∈ rest, c ≠ [] := by
            by_contra hall
            push_neg at hall
            exact hne (List.flatten_eq_nil_iff.mpr hall)
          have hmem : fold1 op c ∈ chunkFolds op rest := by
            simp only [chunkFolds, List.mem_filterMap]
            refine ⟨c, hc, ?_⟩
            rw [if_neg (by simpa [List.isEmpty_iff] using hcne)]
          rw [hrnil] at hmem
          simp at hmem
        rw [hrj, List.append_nil, hrnil]
        have hlhs : ([fold1 op vs].isEmpty = false) := rfl
        simp only [hlhs, Bool.false_eq_true, if_false, hvs]
        have : fold1 op [fold1 op vs] = fold1 op vs := rfl
        rw [this]
      · have hrne : chunkFolds op rest ≠ [] := by
          intro h0
          rw [h0] at hrest
          simp at hrest
        have hjne : rest.flatten ≠ [] := by
          intro hj0
          rw [hj0] at ih
          rw [if_neg (by simpa [List.isEmpty_iff] using hrne)] at ih
          simp at ih
        have ihval : fold1 op (chunkFolds op rest) = fold1 op rest.flatten := by
          have h := ih
          rw [if_neg (by simpa [List.isEmpty_iff] using hrne),
              if_neg (by simpa [List.isEmpty_iff] using hjne)] at h
          exact Option.some.inj h
        rw [if_neg (by simp), if_neg (by simp [hv])]
        congr 1
        rw [fold1_append op hassoc vs rest.flatten hv hjne, ← ihval]
        simp only [fold1]
        exact foldl_fold1 op hassoc (fold1 op vs) (chunkFolds op rest) hrne

lemma rowValuesFor_join (m : Nat → Option Nat) (k : Nat × Nat)
    (chunks : List (List EventRow)) :
    rowValuesFor m k chunks.flatten = (chunks.map (rowValuesFor m k)).flatten := by
  induction chunks with
  | nil => rfl
  | cons c rest ih =>
    simp only [List.flatten_cons, List.map_cons]
    have happ : rowValuesFor m k (c ++ rest.flatten)
        = rowValuesFor m k c ++ rowValuesFor m k rest.flatten := by
      simp [rowValuesFor, List.filter_append]
    rw [happ, ih]

lemma filterMap_chunkValue_eq (agg : AggFunc) (op : ℚ → ℚ → ℚ)
    (hop : ∀ vs, applyAgg agg vs = fold1 op vs) (m : Nat → Option Nat) (k : Nat × Nat)
    (chunks : List (List EventRow)) :
    chunks.filterMap (chunkValue agg m k)
      = chunkFolds op (chunks.map (rowValuesFor m k)) := by
  rw [chunkFolds, List.filterMap_map]
  apply List.filterMap_congr
  intro c _
  simp only [Function.comp, chunkValue, hop]

/-- Claim C8 as amended: for the `min` and `max` aggregations the two-level
chunked reduction (per-chunk aggregate, then the same aggregate across the
per-chunk values) equals the single-pass aggregate over all rows, for every
partition of the rows into chunks and every group key; for `mean` and
`median` the two pipelines can disagree, as the counterexample shows. -/
theorem twoLevelAgg_min_max_eq_onePass (m : Nat → Option Nat) (k : Nat × Nat)
    (chunks : List (List EventRow)) :
    twoLevelAgg AggFunc.min m k chunks = onePassAgg AggFunc.min m k chunks.flatten
    ∧ twoLevelAgg AggFunc.max m k chunks = onePassAgg AggFunc.max m k chunks.flatten := by
  constructor
  · rw [twoLevelAgg, onePassAgg, chunkValue,
      filterMap_chunkValue_eq AggFunc.min (fun a b => min a b) (fun vs => rfl) m k chunks,
      rowValuesFor_join m k chunks]
    exact fold1_two_level (fun a b => min a b)
      (fun a b c => min_assoc a b c) (chunks.map (rowValuesFor m k))
  · rw [twoLevelAgg, onePassAgg, chunkValue,
      filterMap_chunkValue_eq AggFunc.max (fun a b => max a b) (fun vs => rfl) m k chunks,
      rowValuesFor_join m k chunks]
    exact fold1_two_level (fun a b => max a b)
      (fun a b c => max_assoc a b c) (chunks.map (rowValuesFor m k))

/-! ### Claims about the chunked transition pipeline (`ddqn_processing_2.py`) -/

/-- `build_transitions_for_stay(stay, ce_chunk)` from `ddqn_processing_2.py`:
identical to the naive builder except that it reads the chunk it is given
and the mortality lookup is `admissions_idx.get(hadm_id, 0) == 1`. -/
def build_transitions_for_stay_v2 (idx : List (Nat × Nat)) (ce_chunk : List ChartEvent)
    (procedureevents : List ProcEvent) (stay : Stay) : List Transition :=
  let died := (lookupFlag idx stay.hadm_id).getD 0 == 1
  let ce := ce_chunk.filter (fun e => e.stay_id == stay.stay_id)
  let pe := procedureevents.filter (fun e => e.stay_id == stay.stay_id)
  let bins := make_bins stay.intime stay.outtime
  if bins.length < 2 then []
  else mkTransitions (stayStates ce bins) (stayActions pe bins) died

/-- `chunk[chunk.itemid.isin(STATE_V_ITEMIDS)]`: the pre-filter applied to
every chartevents chunk in the main loop. -/
def sv_filter (ce : List ChartEvent) : List ChartEvent :=
  ce.filter (fun e => decide (e.itemid ∈ STATE_V_ITEMIDS))

/-- The naive in-memory pipeline of `ddqn_processing.py`: every stay's
transitions once, against the full chartevents table. -/
def naive_rows (idx : List (Nat × Nat)) (ce : List ChartEvent)
    (pe : List ProcEvent) (stays : List Stay) : List Transition :=
  (stays.map (fun st => build_transitions_for_stay idx ce pe st)).flatten

/-- The chunked pipeline of `ddqn_processing_2.py`: for every chunk, filter
the chunk to the state itemids and append every stay's transitions built
from that chunk alone. -/
def chunked_rows (idx : List (Nat × Nat)) (pe : List ProcEvent) (stays : List Stay)
    (chunks : List (List ChartEvent)) : List Transition :=
  (chunks.map (fun chunk =>
    (stays.map (fun st =>
      build_transitions_for_stay_v2 idx (sv_filter chunk) pe st)).flatten)).flatten

lemma died_v2_eq (idx : List (Nat × Nat)) (hadm_id : Nat) :
    ((lookupFlag idx hadm_id).getD 0 == 1) = diedFlag idx hadm_id := by
  cases h : lookupFlag idx hadm_id with
  | none => simp [diedFlag, h]
  | some f => simp [diedFlag, h]

lemma windowVals_sv_filter (ce : List ChartEvent) (s t iid : Nat)
    (hiid : iid ∈ STATE_V_ITEMIDS) :
    windowVals (sv_filter ce) s t iid = windowVals ce s t iid := by
  simp only [windowVals, sv_filter, List.filter_filter]
  congr 1
  apply List.filter_congr
  intro e _
  by_cases he : e.itemid = iid
  · simp [he, hiid]
  · have hb : (e.itemid == iid) = false := by simpa using he
    simp [hb]

lemma get_state_vector_sv_filter (ce : List ChartEvent) (s t : Nat) :
    get_state_vector (sv_filter ce) s t = get_state_vector ce s t := by
  simp only [get_state_vector]
  apply List.map_congr_left
  intro iid hiid
  rw [windowVals_sv_filter ce s t iid hiid]

lemma sv_filter_stay_comm (ce : List ChartEvent) (sid : Nat) :
    (sv_filter ce).filter (fun e => e.stay_id == sid)
      = sv_filter (ce.filter (fun e => e.stay_id == sid)) := by
  simp only [sv_filter, List.filter_filter]
  apply List.filter_congr
  intro e _
  exact Bool.and_comm _ _

lemma stayStates_sv_filter (ce : List ChartEvent) (bins : List Nat) :
    stayStates (sv_filter ce) bins = stayStates ce bins := by
  simp only [stayStates]
  apply List.map_congr_left
  intro i _
  exact get_state_vector_sv_filter ce _ _

lemma build_v2_sv_filter (idx : List (Nat × Nat)) (ce : List ChartEvent)
    (pe : List ProcEvent) (st : Stay) :
    build_transitions_for_stay_v2 idx (sv_filter ce) pe st
      = build_transitions_for_stay idx ce pe st := by
  simp only [build_transitions_for_stay_v2, build_transitions_for_stay]
  rw [died_v2_eq, sv_filter_stay_comm, stayStates_sv_filter]

/-- Claim C9: the chunked pipeline appends every stay's transition list once
per chunk, computing state vectors only from that chunk's events; with a
single chunk its rows equal the naive in-memory variant's rows for the same
stays, and in general its output is the concatenation, over the chunks, of
one full pass per chunk. -/
theorem chunked_rows_spec (idx : List (Nat × Nat)) (pe : List ProcEvent)
    (stays : List Stay) (ce : List ChartEvent) (chunks : List (List ChartEvent)) :
    chunked_rows idx pe stays [ce] = naive_rows idx ce pe stays
    ∧ chunked_rows idx pe stays chunks
        = (chunks.map (fun chunk => chunked_rows idx pe stays [chunk])).flatten := by
  constructor
  · simp only [chunked_rows, naive_rows, List.map_cons, List.map_nil, List.flatten_cons,
      List.flatten_nil, List.append_nil]
    congr 1
    apply List.map_congr_left
    intro st _
    exact build_v2_sv_filter idx ce pe st
  · simp only [chunked_rows, List.map_cons, List.map_nil, List.flatten_cons,
      List.flatten_nil, List.append_nil]

/-! ### Claims about the outlier capper (`full_aggregate_outliers.py`) -/

/-- `LOW_Q = 0.01`. -/
def LOW_Q : ℚ := 1 / 100

/-- `HIGH_Q = 0.99`. -/
def HIGH_Q : ℚ := 99 / 100

/-- Pandas `Series.quantile` with linear interpolation over the sorted
non-missing values; `none` (pandas NaN) for an empty value list. -/
def quantileQ (q : ℚ) (vs : List ℚ) : Option ℚ :=
  if vs.isEmpty then none
  else
    let s := sortQ vs
    let pos : ℚ := q * ((s.length : ℚ) - 1)
    let lo : Nat := (Int.floor pos).toNat
    if lo + 1 < s.length then
      some (s.getD lo 0 + (pos - lo) * (s.getD (lo + 1) 0 - s.getD lo 0))
    else some (s.getD lo 0)

/-- A processed cell: numeric, the missing sentinel ("nan"), or the outlier
sentinel ("dropped"). -/
inductive CappedVal
  | missing
  | dropped
  | num (v : ℚ)
deriving DecidableEq, Repr

/-- One cell of the per-column loop: a missing cell becomes the missing
sentinel first; a remaining numeric cell strictly outside [lo, hi] becomes
the dropped sentinel, otherwise it stays numeric. -/
def capValue (lo hi : ℚ) : Option ℚ → CappedVal
  | none => CappedVal.missing
  | some v => if v < lo ∨ hi < v then CappedVal.dropped else CappedVal.num v

/-- The per-column pass: quantile thresholds over the non-missing values,
then per-cell marking; when a threshold is unavailable (`pd.isna`) the
outlier marking is skipped and only missing cells are replaced. -/
def capColumn (col : List (Option ℚ)) : List CappedVal :=
  match quantileQ LOW_Q (col.filterMap id), quantileQ HIGH_Q (col.filterMap id) with
  | some lo, some hi => col.map (capValue lo hi)
  | _, _ => col.map (fun c => match c with
      | none => CappedVal.missing
      | some v => CappedVal.num v)

/-- Claim C10: with the column's low/high quantile thresholds defined, an
originally-missing cell is marked missing and never dropped, a numeric cell
strictly outside [lo, hi] is marked dropped, and a numeric cell within
[lo, hi] is kept as the same numeric value. -/
theorem capColumn_spec (col : List (Option ℚ)) (lo hi : ℚ)
    (hlo : quantileQ LOW_Q (col.filterMap id) = some lo)
    (hhi : quantileQ HIGH_Q (col.filterMap id) = some hi)
    (i : Nat) :
    (col[i]? = some none →
        (capColumn col)[i]? = some CappedVal.missing
        ∧ (capColumn col)[i]? ≠ some CappedVal.dropped)
    ∧ (∀ v : ℚ, col[i]? = some (some v) →
        ((v < lo ∨ hi < v) → (capColumn col)[i]? = some CappedVal.dropped)
        ∧ (lo ≤ v → v ≤ hi → (capColumn col)[i]? = some (CappedVal.num v))) := by
  have hcap : capColumn col = col.map (capValue lo hi) := by
    unfold capColumn
    rw [hlo, hhi]
  refine ⟨?_, ?_⟩
  · intro hnone
    rw [hcap]
    constructor
    · simp [List.getElem?_map, hnone, capValue]
    · simp [List.getElem?_map, hnone, capValue]
  · intro v hv
    constructor
    · intro hout
      rw [hcap]
      simp [List.getElem?_map, hv, capValue, hout]
    · intro h1 h2
      rw [hcap]
      have hno : ¬ (v < lo ∨ hi < v) := by
        push_neg
        exact ⟨h1, h2⟩
      simp [List.getElem?_map, hv, capValue, hno]

/-- Claim C10 witness: for the column [0, 100, missing] the thresholds are
1 and 99, so the cell 0 is dropped and the missing cell stays missing. -/
theorem capColumn_spec_witness :
    (capColumn [some 0, some 100, none])[0]? = some CappedVal.dropped
    ∧ (capColumn [some 0, some 100, none])[2]? = some CappedVal.missing := by
  have hfm : ([some 0, some 100, none] : List (Option ℚ)).filterMap id = [0, 100] := by
    decide
  have hsort : sortQ [0, 100] = [0, 100] := by
    norm_num [sortQ, sortedInsert]
  have hlo : quantileQ LOW_Q (([some 0, some 100, none] : List (Option ℚ)).filterMap id)
      = some 1 := by
    rw [hfm]
    rw [quantileQ]
    norm_num [hsort, LOW_Q, List.getD]
  have hhi : quantileQ HIGH_Q (([some 0, some 100, none] : List (Option ℚ)).filterMap id)
      = some 99 := by
    rw [hfm]
    rw [quantileQ]
    norm_num [hsort, HIGH_Q, List.getD]
  constructor
  · exact ((capColumn_spec [some 0, some 100, none] 1 99 hlo hhi 0).2 0 rfl).1
      (Or.inl (by norm_num))
  · exact ((capColumn_spec [some 0, some 100, none] 1 99 hlo hhi 2).1 rfl).1
